import Mathlib

/-!
Verification of the books-scrapper repository (src/scraper.py) against its
natural-language specification.

The Python source is shallowly embedded below.  The document tree handed to
the extractor by BeautifulSoup is modelled by a `Document` structure whose
fields hold exactly what the CSS selectors of `get_book_data` yield (text of
a node, class list of a node, table rows); the HTTP transport is modelled by
explicit fetch functions `String → Option _` (`none` = non-success status,
which in the source raises via `raise_for_status` for detail pages and
breaks the loop for catalog pages).  Python's `re.search` for the two fixed
regexes, `str.replace`, `str.split`/`join`, `str.strip` and dict insertion
are embedded as executable Lean functions on `List Char` / association
lists.  Machine floats produced by `float(...)` on strings of the shape
`digits(.digits)?` are represented exactly as rationals.
-/

/-- Python's `\s` (ASCII part) used by `re.search`, `str.split`, `str.strip`. -/
def pySpace (c : Char) : Bool :=
  c == ' ' || c == '\t' || c == '\n' || c == '\r' || c == '\x0b' || c == '\x0c'

/-- Python's `\d` (ASCII part). -/
def pyDigit (c : Char) : Bool :=
  c.isDigit

/-- Value of a list of decimal digit characters, most significant first. -/
def digitsToNat (l : List Char) : Nat :=
  l.foldl (fun n c => 10 * n + (c.toNat - 48)) 0

/-- `float(s)` for `s` of the shape `digits` or `digits.digits`, as an exact
rational (the decimal value the Python float is parsed from). -/
def parseVal (val : List Char) : Rat :=
  let ds := val.takeWhile pyDigit
  match val.dropWhile pyDigit with
  | '.' :: fs => (digitsToNat ds : Rat) + (digitsToNat fs : Rat) / ((10 : Rat) ^ fs.length)
  | _ => (digitsToNat ds : Rat)

/-- Attempt of the regex `([^\d\s])\s*(\d+(?:\.\d+)?)` anchored at the head of
the list: a non-digit non-space character, greedy whitespace, a greedy digit
run, optionally a dot followed by a nonempty greedy digit run.  Returns the
two capture groups (currency character, numeric text). -/
def matchAt : List Char → Option (Char × List Char)
  | [] => none
  | c :: rest =>
    if pyDigit c || pySpace c then none
    else
      let afterSp := rest.dropWhile pySpace
      let ds := afterSp.takeWhile pyDigit
      if ds.isEmpty then none
      else
        match afterSp.dropWhile pyDigit with
        | '.' :: r3 =>
          let fs := r3.takeWhile pyDigit
          if fs.isEmpty then some (c, ds) else some (c, ds ++ '.' :: fs)
        | _ => some (c, ds)

/-- `re.search` for that regex: try every start position left to right and
return the captures of the leftmost match. -/
def research : List Char → Option (Char × List Char)
  | [] => none
  | c :: rest =>
    match matchAt (c :: rest) with
    | some m => some m
    | none => research rest

/-- `parse_price` of `src/scraper.py` (lines 47-57).  Input is
`text_or_none` of the price node: `none` when the node is absent, otherwise
its stripped text.  Returns `(price, currency, price_text)`. -/
def parse_price (raw : Option String) : Option Rat × Option Char × Option String :=
  match raw with
  | none => (none, none, none)
  | some s =>
    if s = "" then (none, none, none)
    else
      match research s.toList with
      | none => (none, none, some s)
      | some (cur, val) => (some (parseVal val), some cur, some s)

/-- The fixed rating vocabulary of `parse_rating` (line 64). -/
def rating_map : List (String × Nat) :=
  [("One", 1), ("Two", 2), ("Three", 3), ("Four", 4), ("Five", 5)]

/-- Membership lookup `c in rating_map` / `rating_map[c]`. -/
def ratingLookup (c : String) : Option Nat :=
  match rating_map.find? (fun kv => kv.1 == c) with
  | some kv => some kv.2
  | none => none

/-- The `for c in classes` scan of `parse_rating` (lines 65-67). -/
def ratingScan : List String → Option Nat
  | [] => none
  | c :: rest =>
    match ratingLookup c with
    | some v => some v
    | none => ratingScan rest

/-- `parse_rating` of `src/scraper.py` (lines 59-68).  Input is the class
token list of the `p.star-rating` node, `none` when the node is absent. -/
def parse_rating (star_node : Option (List String)) : Option Nat :=
  match star_node with
  | none => none
  | some classes => ratingScan classes

/-- First contiguous digit run of the list: `re.search(r"(\d+)", ...)`. -/
def firstDigitRun : List Char → Option (List Char)
  | [] => none
  | c :: rest =>
    if pyDigit c then some (c :: rest.takeWhile pyDigit) else firstDigitRun rest

/-- `str.strip()` on the modelled whitespace set. -/
def pyStrip (l : List Char) : List Char :=
  ((l.dropWhile pySpace).reverse.dropWhile pySpace).reverse

/-- `parse_availability` of `src/scraper.py` (lines 70-75): first digit run
as the count, stripped text as the raw availability text. -/
def parse_availability (raw : Option String) : Option Nat × Option String :=
  match raw with
  | none => (none, none)
  | some s =>
    if s = "" then (none, none)
    else
      match firstDigitRun s.toList with
      | some ds => (some (digitsToNat ds), some (String.mk (pyStrip s.toList)))
      | none => (none, some (String.mk (pyStrip s.toList)))

/-- `str.split()` (split on whitespace runs, dropping empty pieces);
accumulator holds the current word reversed. -/
def pySplitAux : List Char → List Char → List (List Char)
  | [], cur => if cur.isEmpty then [] else [cur.reverse]
  | c :: rest, cur =>
    if pySpace c then
      if cur.isEmpty then pySplitAux rest [] else cur.reverse :: pySplitAux rest []
    else pySplitAux rest (c :: cur)

/-- `" ".join(s.split())` of line 87: collapse whitespace runs to single
spaces and trim. -/
def collapseWs (s : String) : String :=
  String.mk (List.intercalate [' '] (pySplitAux s.toList []))

/-- One detail-page document, as seen through the CSS selectors of
`get_book_data`.  Each field holds exactly what the corresponding selector
plus `get_text` yields on the page:
* `product_main_h1`: stripped text of `div.product_main h1`, `none` when absent;
* `price_color`: stripped text of `div.product_main p.price_color`;
* `star_rating`: class token list of `p.star-rating`, `none` when absent
  (a present node with no class attribute is `some []`);
* `availability_raw`: raw `get_text()` of `p.instock.availability`;
* `description_section`: `none` when `#product_description` is absent,
  otherwise the stripped text of the following `p` (`some none` when no such
  `p` exists);
* `info_rows`: for `table.table.table-striped`, the `(th, td)` stripped
  texts of each `tr` row (`none` in a component when the cell is missing). -/
structure Document where
  product_main_h1 : Option String
  price_color : Option String
  star_rating : Option (List String)
  availability_raw : Option String
  description_section : Option (Option String)
  info_rows : Option (List (Option String × Option String))
  deriving DecidableEq

/-- The structured record built at lines 107-118 of `src/scraper.py`. -/
structure BookRecord where
  url : String
  title : Option String
  price : Option Rat
  currency : Option Char
  price_text : Option String
  rating : Option Nat
  availability_count : Option Nat
  availability_text : Option String
  description : Option String
  product_info : List (String × String)
  deriving DecidableEq

instance : Inhabited BookRecord :=
  ⟨⟨"", none, none, none, none, none, none, none, none, []⟩⟩

/-- Python dict assignment `d[key] = val` on an insertion-ordered
association list: update in place when the key exists, append otherwise. -/
def dictInsert : List (String × String) → String → String → List (String × String)
  | [], k, v => [(k, v)]
  | (k0, v0) :: rest, k, v =>
    if k0 = k then (k0, v) :: rest else (k0, v0) :: dictInsert rest k v

/-- The `product_info` loop of lines 96-105: a row contributes an entry only
when both `th` and `td` are present. -/
def buildProductInfo (rows : Option (List (Option String × Option String))) :
    List (String × String) :=
  match rows with
  | none => []
  | some rs =>
    rs.foldl
      (fun acc row =>
        match row.1, row.2 with
        | some k, some v => dictInsert acc k v
        | _, _ => acc)
      []

/-- The pure tail of `get_book_data` (lines 42-121): from the parsed
document and the source URL to the returned dictionary. -/
def extract (doc : Document) (book_url : String) : BookRecord :=
  let priced := parse_price doc.price_color
  let avail_text := doc.availability_raw.map collapseWs
  let availed := parse_availability avail_text
  { url := book_url
    title := doc.product_main_h1
    price := priced.1
    currency := priced.2.1
    price_text := priced.2.2
    rating := parse_rating doc.star_rating
    availability_count := availed.1
    availability_text := availed.2
    description :=
      match doc.description_section with
      | none => none
      | some p => p
    product_info := buildProductInfo doc.info_rows }

/-- `get_book_data` of `src/scraper.py` (lines 13-122).  The function itself
performs the HTTP GET of `book_url` (line 39): the transport is passed in as
`fetch`, with `none` for a non-success status, on which `raise_for_status`
(line 40) raises — modelled by `Except.error`. -/
def get_book_data (fetch : String → Option Document) (book_url : String) :
    Except Unit BookRecord :=
  match fetch book_url with
  | none => Except.error ()
  | some doc => Except.ok (extract doc book_url)

/-- `BASE_URL` of line 10. -/
def BASE_URL : String := "http://books.toscrape.com"

/-- Python's `href.replace("../", "")`: remove every occurrence of `../`,
scanning left to right, non-overlapping. -/
def stripDotDot : List Char → List Char
  | '.' :: '.' :: '/' :: rest => stripDotDot rest
  | c :: rest => c :: stripDotDot rest
  | [] => []

/-- Python's `href.startswith("../")`. -/
def startsWithDotDot : List Char → Bool
  | '.' :: '.' :: '/' :: _ => true
  | _ => false

/-- Whether `../` occurs anywhere in the list (as a substring). -/
def hasDotDot : List Char → Bool
  | '.' :: '.' :: '/' :: _ => true
  | _ :: rest => hasDotDot rest
  | [] => false

/-- Lines 164-166 of `src/scraper.py`: conditional `../` removal followed by
re-rooting under the catalogue base path. -/
def normalize_href (href : String) : String :=
  if startsWithDotDot href.toList then String.mk (stripDotDot href.toList) else href

/-- `book_url = f"{BASE_URL}/catalogue/{href}"` (line 166). -/
def bookUrl (href : String) : String :=
  BASE_URL ++ "/catalogue/" ++ normalize_href href

/-- One listing-card anchor `article.product_pod h3 a`: its `href` attribute
(`a.get("href")`), `none` when the attribute is absent. -/
abbrev Anchor : Type := Option String

/-- A fetched catalog page, as seen through the selector of line 157: the
list of its listing-card anchors in document order. -/
abbrev CatalogPage : Type := List Anchor

/-- The external HTTP transport of one run: catalog page number to page
(`none` = status ≠ 200, line 153) and detail URL to document (`none` =
non-success, which `get_book_data` turns into a raised error). -/
structure Env where
  fetchCatalog : Nat → Option CatalogPage
  fetchDetail : String → Option Document

/-- The `if not href: continue` guard of lines 160-162 (Python falsiness:
both a missing attribute and an empty string are skipped). -/
def hrefCheck (a : Anchor) : Option String :=
  match a with
  | none => none
  | some h => if h = "" then none else some h

/-- The detail URLs a catalog page contributes, in in-page anchor order:
anchors that pass the `href` guard, normalized by `bookUrl`. -/
def detailUrls (cards : CatalogPage) : List String :=
  (cards.filterMap hrefCheck).map bookUrl

/-- Outcome of one `scrape_books` run.  `timeout` models non-termination of
the `while True` loop (fuel exhausted); `fail` models an exception
propagating out of a detail-page fetch (nothing is returned or saved). -/
inductive Outcome where
  | timeout
  | fail
  | ok (records : List BookRecord)
  deriving DecidableEq

/-- The inner `for a in book_cards` loop of lines 159-169: skip guarded
anchors, fetch and extract each remaining detail page in order, appending to
`all_books`; a failed detail fetch raises out of the whole loop. -/
def processCards (env : Env) : List Anchor → List BookRecord →
    Except Unit (List BookRecord)
  | [], acc => Except.ok acc
  | a :: rest, acc =>
    match hrefCheck a with
    | none => processCards env rest acc
    | some href =>
      match get_book_data env.fetchDetail (bookUrl href) with
      | Except.error e => Except.error e
      | Except.ok r => processCards env rest (acc ++ [r])

/-- The `while True` pagination loop of lines 149-174, with explicit fuel:
stop with the collected records on a non-200 catalog fetch, propagate a
detail-page failure, stop after the current page when it equals
`pages_to_scrape`, otherwise advance to the next page. -/
def scrapeLoop (env : Env) (limit : Option Nat) :
    Nat → Nat → List BookRecord → Outcome
  | 0, _, _ => Outcome.timeout
  | fuel + 1, page_num, acc =>
    match env.fetchCatalog page_num with
    | none => Outcome.ok acc
    | some cards =>
      match processCards env cards acc with
      | Except.error _ => Outcome.fail
      | Except.ok acc2 =>
        if limit = some page_num then Outcome.ok acc2
        else scrapeLoop env limit fuel (page_num + 1) acc2

/-- `scrape_books` of `src/scraper.py` (lines 125-183), crawl part: the loop
started at page 1 with an empty `all_books`. -/
def scrape_books (env : Env) (pages_to_scrape : Option Nat) (fuel : Nat) : Outcome :=
  scrapeLoop env pages_to_scrape fuel 1 []

/-- JSON values, at the abstraction level of `json.dumps(..., ensure_ascii=False)`
/ `json.loads`: strings are carried as-is (non-ASCII characters preserved
literally), numbers as the exact rational the decimal text denotes, objects
as insertion-ordered key-value lists. -/
inductive Json where
  | null
  | str (s : String)
  | num (q : Rat)
  | obj (fields : List (String × Json))

/-- Encoding of an optional string field (`None` ↦ `null`). -/
def encOptStr (o : Option String) : Json :=
  match o with
  | none => Json.null
  | some s => Json.str s

/-- Encoding of the optional price (`float` ↦ JSON number). -/
def encOptRat (o : Option Rat) : Json :=
  match o with
  | none => Json.null
  | some q => Json.num q

/-- Encoding of an optional integer field (`int` ↦ JSON number). -/
def encOptNat (o : Option Nat) : Json :=
  match o with
  | none => Json.null
  | some n => Json.num (n : Rat)

/-- Encoding of the one-character currency capture group (a length-1 Python
string). -/
def encOptChar (o : Option Char) : Json :=
  match o with
  | none => Json.null
  | some c => Json.str (String.mk [c])

/-- The JSON object `json.dumps(book, ensure_ascii=False)` serializes, with
the key order of the dict literal at lines 107-118. -/
def bookToJson (r : BookRecord) : Json :=
  Json.obj
    [("url", Json.str r.url),
     ("title", encOptStr r.title),
     ("price", encOptRat r.price),
     ("currency", encOptChar r.currency),
     ("price_text", encOptStr r.price_text),
     ("rating", encOptNat r.rating),
     ("availability_count", encOptNat r.availability_count),
     ("availability_text", encOptStr r.availability_text),
     ("description", encOptStr r.description),
     ("product_info", Json.obj (r.product_info.map (fun kv => (kv.1, Json.str kv.2))))]

/-- The save step of lines 177-180: executed only when the loop returned
normally (an exception from a detail fetch propagates out of `scrape_books`
before it) and `is_save` is set; one serialized record per line of
`books_data.txt`. -/
def savedLines (is_save : Bool) (outcome : Outcome) : Option (List Json) :=
  match outcome with
  | Outcome.ok rs => if is_save then some (rs.map bookToJson) else none
  | _ => none

/-- Modelled from the spec: the re-parsing direction of the round-trip
property of §6/§8 ("serializing a CrawlResult to line-delimited records and
re-parsing yields records equal (field-by-field) to the originals") is not
code of this repository — the source only writes `books_data.txt`.  Decoder
for an optional string field. -/
def decOptStr : Json → Option (Option String)
  | Json.null => some none
  | Json.str s => some (some s)
  | _ => none

/-- Modelled from the spec (see `decOptStr`): decoder for the price. -/
def decOptRat : Json → Option (Option Rat)
  | Json.null => some none
  | Json.num q => some (some q)
  | _ => none

/-- Modelled from the spec (see `decOptStr`): decoder for an optional
non-negative integer field. -/
def decOptNat : Json → Option (Option Nat)
  | Json.null => some none
  | Json.num q => if q.den = 1 ∧ 0 ≤ q.num then some (some q.num.toNat) else none
  | _ => none

/-- Modelled from the spec (see `decOptStr`): decoder for the one-character
currency string. -/
def decOptChar : Json → Option (Option Char)
  | Json.null => some none
  | Json.str s =>
    match s.toList with
    | [c] => some (some c)
    | _ => none
  | _ => none

/-- Modelled from the spec (see `decOptStr`): decoder for the
`product_info` string-to-string mapping. -/
def decPairs : List (String × Json) → Option (List (String × String))
  | [] => some []
  | (k, Json.str v) :: rest => (decPairs rest).map (fun l => (k, v) :: l)
  | _ => none

/-- Modelled from the spec (see `decOptStr`): re-parse one serialized line
back into a `BookRecord`, checking the field keys of the written object. -/
def jsonToBook : Json → Option BookRecord
  | Json.obj [(k1, Json.str url), (k2, t), (k3, p), (k4, c), (k5, pt), (k6, rt),
      (k7, ac), (k8, av), (k9, d), (k10, Json.obj pi)] =>
    if k1 = "url" ∧ k2 = "title" ∧ k3 = "price" ∧ k4 = "currency" ∧
        k5 = "price_text" ∧ k6 = "rating" ∧ k7 = "availability_count" ∧
        k8 = "availability_text" ∧ k9 = "description" ∧ k10 = "product_info" then do
      let title ← decOptStr t
      let price ← decOptRat p
      let currency ← decOptChar c
      let price_text ← decOptStr pt
      let rating ← decOptNat rt
      let availability_count ← decOptNat ac
      let availability_text ← decOptStr av
      let description ← decOptStr d
      let product_info ← decPairs pi
      some ⟨url, title, price, currency, price_text, rating, availability_count,
        availability_text, description, product_info⟩
    else none
  | _ => none

/-- Modelled from the spec (see `decOptStr`): re-parse a whole line-delimited
file, one record per line, failing if any line fails. -/
def reparseRecords (lines : List Json) : Option (List BookRecord) :=
  match lines with
  | [] => some []
  | l :: rest => do
    let r ← jsonToBook l
    let rs ← reparseRecords rest
    some (r :: rs)

/-- The record a successful crawl stores for a detail URL: extraction of the
fetched document (the `default` branch is unreachable when the fetch
succeeds). -/
def extractFetched (env : Env) (url : String) : BookRecord :=
  match env.fetchDetail url with
  | some doc => extract doc url
  | none => default

/-- A detail-page document all of whose selectors come up empty. -/
def docEmpty : Document :=
  ⟨none, none, none, none, none, none⟩

/-- A transport on which every detail fetch fails (non-success status). -/
def fetchFailing : String → Option Document := fun _ => none

/-- A transport on which every detail fetch returns `docEmpty`. -/
def fetchEmptyDoc : String → Option Document := fun _ => some docEmpty

/-- A transport returning `docEmpty` for one specific URL only. -/
def fetchOneDoc : String → Option Document := fun u =>
  if u = "http://books.toscrape.com/catalogue/x.html" then some docEmpty else none

/-- Run environment: catalog pages 1 and 2 are empty listings, page 3 is
unavailable; detail fetches succeed. -/
def envA : Env :=
  ⟨fun p => if p = 3 then none else some [], fetchEmptyDoc⟩

/-- Run environment: catalog page 1 has three anchors (one without `href`),
later pages unavailable; detail fetches succeed. -/
def envB : Env :=
  ⟨fun p => if p = 1 then some [some "a.html", none, some "../b.html"] else none,
   fetchEmptyDoc⟩

/-- Run environment: catalog page 1 has one anchor and its detail fetch
fails. -/
def envC : Env :=
  ⟨fun p => if p = 1 then some [some "x.html"] else none, fetchFailing⟩

/-! ### Helper lemmas -/

theorem dropWhile_append_all {α} (p : α → Bool) {l1 : List α} (l2 : List α)
    (h : ∀ c ∈ l1, p c = true) : (l1 ++ l2).dropWhile p = l2.dropWhile p := by
  induction l1 with
  | nil => rfl
  | cons a t ih =>
    rw [List.cons_append, List.dropWhile_cons_of_pos (h a (by simp))]
    exact ih (fun c hc => h c (by simp [hc]))

theorem takeWhile_append_all {α} (p : α → Bool) {l1 : List α} (l2 : List α)
    (h : ∀ c ∈ l1, p c = true) : (l1 ++ l2).takeWhile p = l1 ++ l2.takeWhile p := by
  induction l1 with
  | nil => rfl
  | cons a t ih =>
    rw [List.cons_append, List.takeWhile_cons_of_pos (h a (by simp)), ih
      (fun c hc => h c (by simp [hc])), List.cons_append]

theorem takeWhile_all {α} (p : α → Bool) {l : List α}
    (h : ∀ c ∈ l, p c = true) : l.takeWhile p = l := by
  have := takeWhile_append_all p ([] : List α) h
  simpa using this

theorem dropWhile_all {α} (p : α → Bool) {l : List α}
    (h : ∀ c ∈ l, p c = true) : l.dropWhile p = [] := by
  have := dropWhile_append_all p ([] : List α) h
  simpa using this

theorem pySpace_eq_false_of_pyDigit {c : Char} (h : pyDigit c = true) :
    pySpace c = false := by
  by_contra hc
  have hs : pySpace c = true := by
    cases hps : pySpace c
    · exact absurd hps hc
    · rfl
  simp only [pySpace, Bool.or_eq_true, beq_iff_eq] at hs
  rcases hs with ((((h1 | h2) | h3) | h4) | h5) | h6 <;>
    subst_vars <;> exact absurd h (by decide)

theorem matchAt_cons_digit {c : Char} (rest : List Char) (h : pyDigit c = true) :
    matchAt (c :: rest) = none := by
  simp [matchAt, h]

theorem research_cons_none {c : Char} {rest : List Char}
    (h : matchAt (c :: rest) = none) : research (c :: rest) = research rest := by
  simp [research, h]

theorem research_cons_some {c : Char} {rest : List Char} {v : Char × List Char}
    (h : matchAt (c :: rest) = some v) : research (c :: rest) = some v := by
  simp [research, h]

theorem research_digits_prefix (ds t : List Char)
    (h : ∀ c ∈ ds, pyDigit c = true) : research (ds ++ t) = research t := by
  induction ds with
  | nil => rfl
  | cons d ds' ih =>
    rw [List.cons_append,
      research_cons_none (matchAt_cons_digit _ (h d (by simp)))]
    exact ih (fun c hc => h c (by simp [hc]))

theorem matchAt_full (m : Char) (sp ds fs : List Char)
    (hm1 : pyDigit m = false) (hm2 : pySpace m = false)
    (hsp : ∀ c ∈ sp, pySpace c = true)
    (hds : ds ≠ []) (hdig : ∀ c ∈ ds, pyDigit c = true)
    (hfs : fs ≠ []) (hfdig : ∀ c ∈ fs, pyDigit c = true) :
    matchAt (m :: (sp ++ (ds ++ '.' :: fs))) = some (m, ds ++ '.' :: fs) := by
  obtain ⟨d, ds', rfl⟩ := List.exists_cons_of_ne_nil hds
  obtain ⟨f, fs', rfl⟩ := List.exists_cons_of_ne_nil hfs
  have hd : pyDigit d = true := hdig d (by simp)
  have e1 : (sp ++ ((d :: ds') ++ '.' :: (f :: fs'))).dropWhile pySpace =
      (d :: ds') ++ '.' :: (f :: fs') := by
    rw [dropWhile_append_all pySpace _ hsp, List.cons_append,
      List.dropWhile_cons_of_neg (by simp [pySpace_eq_false_of_pyDigit hd])]
  have e2 : ((d :: ds') ++ '.' :: (f :: fs')).takeWhile pyDigit = d :: ds' := by
    rw [takeWhile_append_all pyDigit _ hdig,
      List.takeWhile_cons_of_neg (by decide), List.append_nil]
  have e3 : ((d :: ds') ++ '.' :: (f :: fs')).dropWhile pyDigit =
      '.' :: (f :: fs') := by
    rw [dropWhile_append_all pyDigit _ hdig,
      List.dropWhile_cons_of_neg (by decide)]
  have e4 : (f :: fs').takeWhile pyDigit = f :: fs' := takeWhile_all pyDigit hfdig
  simp only [matchAt, hm1, hm2, Bool.or_self, Bool.false_eq_true, if_false, e1, e2,
    e3, e4, List.isEmpty_cons]

theorem matchAt_nofrac (m : Char) (sp ds : List Char)
    (hm1 : pyDigit m = false) (hm2 : pySpace m = false)
    (hsp : ∀ c ∈ sp, pySpace c = true)
    (hds : ds ≠ []) (hdig : ∀ c ∈ ds, pyDigit c = true) :
    matchAt (m :: (sp ++ ds)) = some (m, ds) := by
  obtain ⟨d, ds', rfl⟩ := List.exists_cons_of_ne_nil hds
  have hd : pyDigit d = true := hdig d (by simp)
  have e1 : (sp ++ (d :: ds')).dropWhile pySpace = d :: ds' := by
    rw [dropWhile_append_all pySpace _ hsp,
      List.dropWhile_cons_of_neg (by simp [pySpace_eq_false_of_pyDigit hd])]
  have e2 : (d :: ds').takeWhile pyDigit = d :: ds' := takeWhile_all pyDigit hdig
  have e3 : (d :: ds').dropWhile pyDigit = [] := dropWhile_all pyDigit hdig
  simp only [matchAt, hm1, hm2, Bool.or_self, Bool.false_eq_true, if_false, e1, e2,
    e3, List.isEmpty_cons]

theorem parseVal_frac (ds fs : List Char)
    (hdig : ∀ c ∈ ds, pyDigit c = true) :
    parseVal (ds ++ '.' :: fs) =
      (digitsToNat ds : Rat) + (digitsToNat fs : Rat) / ((10 : Rat) ^ fs.length) := by
  have e2 : (ds ++ '.' :: fs).takeWhile pyDigit = ds := by
    rw [takeWhile_append_all pyDigit _ hdig,
      List.takeWhile_cons_of_neg (by decide), List.append_nil]
  have e3 : (ds ++ '.' :: fs).dropWhile pyDigit = '.' :: fs := by
    rw [dropWhile_append_all pyDigit _ hdig,
      List.dropWhile_cons_of_neg (by decide)]
  simp only [parseVal, e2, e3]

theorem parseVal_digits (ds : List Char) (hdig : ∀ c ∈ ds, pyDigit c = true) :
    parseVal ds = (digitsToNat ds : Rat) := by
  have e2 : ds.takeWhile pyDigit = ds := takeWhile_all pyDigit hdig
  have e3 : ds.dropWhile pyDigit = [] := dropWhile_all pyDigit hdig
  simp only [parseVal, e2, e3]

theorem stringMk_cons_ne_empty (c : Char) (l : List Char) :
    String.mk (c :: l) ≠ "" :=
  fun h => List.noConfusion (congrArg String.data h)

theorem stripDotDot_id (l : List Char) (h : hasDotDot l = false) :
    stripDotDot l = l := by
  induction l using stripDotDot.induct with
  | case1 rest => exact absurd h (by simp [hasDotDot])
  | case2 c rest hne ih =>
    have h2 : hasDotDot rest = false := by
      rw [hasDotDot] at h
      · exact h
      · exact hne
    rw [stripDotDot, ih h2]
    exact hne
  | case3 => rfl

theorem detailUrls_cons_skip {a : Anchor} {rest : List Anchor}
    (h : hrefCheck a = none) : detailUrls (a :: rest) = detailUrls rest := by
  simp [detailUrls, List.filterMap_cons, h]

theorem detailUrls_cons_link {a : Anchor} {rest : List Anchor} {h0 : String}
    (h : hrefCheck a = some h0) :
    detailUrls (a :: rest) = bookUrl h0 :: detailUrls rest := by
  simp [detailUrls, List.filterMap_cons, h]

theorem processCards_ok (env : Env) (cards : List Anchor) (acc : List BookRecord)
    (h : ∀ url ∈ detailUrls cards, (env.fetchDetail url).isSome = true) :
    processCards env cards acc =
      Except.ok (acc ++ (detailUrls cards).map (extractFetched env)) := by
  induction cards generalizing acc with
  | nil => simp [processCards, detailUrls]
  | cons a rest ih =>
    cases ha : hrefCheck a with
    | none =>
      have h2 : ∀ url ∈ detailUrls rest, (env.fetchDetail url).isSome = true :=
        fun url hu => h url (by rw [detailUrls_cons_skip ha]; exact hu)
      rw [detailUrls_cons_skip ha]
      simp only [processCards, ha]
      exact ih acc h2
    | some h0 =>
      have h2 : ∀ url ∈ detailUrls rest, (env.fetchDetail url).isSome = true :=
        fun url hu =>
          h url (by rw [detailUrls_cons_link ha]; exact List.mem_cons_of_mem _ hu)
      have hd : (env.fetchDetail (bookUrl h0)).isSome = true :=
        h (bookUrl h0) (by rw [detailUrls_cons_link ha]; exact List.mem_cons_self _ _)
      obtain ⟨doc, hdoc⟩ := Option.isSome_iff_exists.mp hd
      have hef : extractFetched env (bookUrl h0) = extract doc (bookUrl h0) := by
        simp [extractFetched, hdoc]
      simp only [processCards, ha, get_book_data, hdoc]
      rw [ih (acc ++ [extract doc (bookUrl h0)]) h2, detailUrls_cons_link ha,
        List.map_cons, hef]
      simp

theorem processCards_fail (env : Env) (cards : List Anchor) (acc : List BookRecord)
    (h : ∃ url ∈ detailUrls cards, env.fetchDetail url = none) :
    processCards env cards acc = Except.error () := by
  induction cards generalizing acc with
  | nil => simp [detailUrls] at h
  | cons a rest ih =>
    cases ha : hrefCheck a with
    | none =>
      simp only [processCards, ha]
      exact ih acc (by rwa [detailUrls_cons_skip ha] at h)
    | some h0 =>
      cases hdoc : env.fetchDetail (bookUrl h0) with
      | none => simp only [processCards, ha, get_book_data, hdoc]
      | some doc =>
        simp only [processCards, ha, get_book_data, hdoc]
        apply ih
        obtain ⟨url, hu, hnone⟩ := h
        rw [detailUrls_cons_link ha] at hu
        rcases List.mem_cons.mp hu with rfl | hu2
        · rw [hdoc] at hnone; cases hnone
        · exact ⟨url, hu2, hnone⟩

theorem processCards_congr (env env2 : Env) (h : env.fetchDetail = env2.fetchDetail) :
    ∀ (cards : List Anchor) (acc : List BookRecord),
      processCards env cards acc = processCards env2 cards acc := by
  intro cards
  induction cards with
  | nil => intro acc; rfl
  | cons a rest ih =>
    intro acc
    cases ha : hrefCheck a with
    | none =>
      simp only [processCards, ha]
      exact ih acc
    | some h0 =>
      simp only [processCards, ha, h]
      cases get_book_data env2.fetchDetail (bookUrl h0) with
      | error e => rfl
      | ok r => exact ih (acc ++ [r])

theorem scrapeLoop_no_timeout (env : Env) (k : Nat)
    (hk : env.fetchCatalog k = none) :
    ∀ (fuel page : Nat) (acc : List BookRecord), page ≤ k → k - page < fuel →
      scrapeLoop env none fuel page acc ≠ Outcome.timeout := by
  intro fuel
  induction fuel with
  | zero => intro page acc hp hf; omega
  | succ f ih =>
    intro page acc hp hf
    by_cases hpk : page = k
    · subst hpk
      simp [scrapeLoop, hk]
    · have hlt : page < k := lt_of_le_of_ne hp hpk
      cases hcat : env.fetchCatalog page with
      | none => simp [scrapeLoop, hcat]
      | some cards =>
        cases hpc : processCards env cards acc with
        | error e => simp [scrapeLoop, hcat, hpc]
        | ok acc2 =>
          simp only [scrapeLoop, hcat, hpc]
          rw [if_neg (by simp)]
          exact ih (page + 1) acc2 (by omega) (by omega)

theorem decOptStr_enc (o : Option String) : decOptStr (encOptStr o) = some o := by
  cases o <;> rfl

theorem decOptRat_enc (o : Option Rat) : decOptRat (encOptRat o) = some o := by
  cases o <;> rfl

theorem decOptChar_enc (o : Option Char) : decOptChar (encOptChar o) = some o := by
  cases o <;> rfl

theorem decOptNat_enc (o : Option Nat) : decOptNat (encOptNat o) = some o := by
  cases o with
  | none => rfl
  | some n =>
    simp only [encOptNat, decOptNat]
    rw [if_pos ⟨Rat.den_natCast n, by simp⟩]
    simp

theorem decPairs_enc (l : List (String × String)) :
    decPairs (l.map (fun kv => (kv.1, Json.str kv.2))) = some l := by
  induction l with
  | nil => rfl
  | cons kv rest ih =>
    obtain ⟨k, v⟩ := kv
    simp only [List.map_cons, decPairs, ih]
    rfl

theorem jsonToBook_bookToJson (r : BookRecord) : jsonToBook (bookToJson r) = some r := by
  obtain ⟨url, title, price, currency, price_text, rating, ac, av, d, pi⟩ := r
  simp [bookToJson, jsonToBook, decOptStr_enc, decOptRat_enc, decOptChar_enc,
    decOptNat_enc, decPairs_enc]

/-! ### Claims -/

/-- C1, counterexample: `get_book_data` is not independent of the HTTP
transport — it performs the network fetch of `book_url` itself (line 39).
With the same source URL but two different transport states the two
invocations disagree (one raises, one returns a record), so it is not a
pure function of a document and a source URL. -/
theorem spec_C1_counterexample :
    get_book_data fetchFailing "http://books.toscrape.com/catalogue/x.html" ≠
      get_book_data fetchEmptyDoc "http://books.toscrape.com/catalogue/x.html" := by
  simp [get_book_data, fetchFailing, fetchEmptyDoc]

/-- C1, amended: `get_book_data` fetches the detail page itself, so it is a
function of the source URL and the transport; it is deterministic given the
fetch result: whenever two transports return the same document (or the same
failure) for the URL, the two invocations produce the same result, and the
extraction from the fetched document is pure. -/
theorem spec_C1 (fetch1 fetch2 : String → Option Document) (book_url : String)
    (h : fetch1 book_url = fetch2 book_url) :
    get_book_data fetch1 book_url = get_book_data fetch2 book_url := by
  unfold get_book_data
  rw [h]

/-- C1, witness: the amended determinism claim applied to two concrete
transports that agree on the fetched URL. -/
theorem spec_C1_witness :
    fetchEmptyDoc "http://books.toscrape.com/catalogue/x.html" =
      fetchOneDoc "http://books.toscrape.com/catalogue/x.html" ∧
    get_book_data fetchEmptyDoc "http://books.toscrape.com/catalogue/x.html" =
      get_book_data fetchOneDoc "http://books.toscrape.com/catalogue/x.html" :=
  ⟨by decide,
   spec_C1 fetchEmptyDoc fetchOneDoc "http://books.toscrape.com/catalogue/x.html"
     (by decide)⟩

/-- C5: a price text of the shape marker, optional whitespace, digits, dot,
digits parses to exactly the decimal value, the marker character as the
currency, and the raw string as `price_text`; a nonempty price text on which
the regex finds no match yields `(none, none, raw)`. -/
theorem spec_C5 :
    (∀ (m : Char) (sp ds fs : List Char),
        pyDigit m = false → pySpace m = false →
        (∀ c ∈ sp, pySpace c = true) →
        ds ≠ [] → (∀ c ∈ ds, pyDigit c = true) →
        fs ≠ [] → (∀ c ∈ fs, pyDigit c = true) →
        parse_price (some (String.mk (m :: (sp ++ (ds ++ '.' :: fs))))) =
          (some ((digitsToNat ds : Rat) +
             (digitsToNat fs : Rat) / ((10 : Rat) ^ fs.length)),
           some m, some (String.mk (m :: (sp ++ (ds ++ '.' :: fs)))))) ∧
    (∀ s : String, s ≠ "" → research s.toList = none →
        parse_price (some s) = (none, none, some s)) := by
  constructor
  · intro m sp ds fs hm1 hm2 hsp hds hdig hfs hfdig
    have hres : research (m :: (sp ++ (ds ++ '.' :: fs))) =
        some (m, ds ++ '.' :: fs) :=
      research_cons_some (matchAt_full m sp ds fs hm1 hm2 hsp hds hdig hfs hfdig)
    simp only [parse_price]
    rw [if_neg (stringMk_cons_ne_empty _ _)]
    have htl : (String.mk (m :: (sp ++ (ds ++ '.' :: fs)))).toList =
        m :: (sp ++ (ds ++ '.' :: fs)) := rfl
    rw [htl, hres]
    dsimp only
    rw [parseVal_frac ds fs hdig]
  · intro s hs hres
    simp only [parse_price]
    rw [if_neg hs, hres]

/-- C5, witness: the matching branch on `"£51.77"` and the non-matching
branch on `"abc"`. -/
theorem spec_C5_witness :
    String.mk ('£' :: ([] ++ (['5', '1'] ++ '.' :: ['7', '7']))) = "£51.77" ∧
    parse_price (some (String.mk ('£' :: ([] ++ (['5', '1'] ++ '.' :: ['7', '7']))))) =
      (some ((digitsToNat ['5', '1'] : Rat) +
         (digitsToNat ['7', '7'] : Rat) / ((10 : Rat) ^ (['7', '7'] : List Char).length)),
       some '£', some (String.mk ('£' :: ([] ++ (['5', '1'] ++ '.' :: ['7', '7']))))) ∧
    parse_price (some "abc") = (none, none, some "abc") :=
  ⟨rfl,
   spec_C5.1 '£' [] ['5', '1'] ['7', '7'] (by decide) (by decide) (by decide)
     (by decide) (by decide) (by decide) (by decide),
   spec_C5.2 "abc" (by decide) (by decide)⟩

/-- C6: with a present rating element whose class tokens contain exactly one
vocabulary token, the rating is that token's integer; with no recognized
token, or an absent element, the rating is `none`. -/
theorem spec_C6 :
    (∀ (pre post : List String) (t : String) (v : Nat),
        (∀ c ∈ pre, ratingLookup c = none) →
        ratingLookup t = some v →
        (∀ c ∈ post, ratingLookup c = none) →
        parse_rating (some (pre ++ t :: post)) = some v) ∧
    (∀ classes : List String, (∀ c ∈ classes, ratingLookup c = none) →
        parse_rating (some classes) = none) ∧
    parse_rating none = none := by
  refine ⟨?_, ?_, rfl⟩
  · intro pre post t v hpre ht _hpost
    induction pre with
    | nil => simp [parse_rating, ratingScan, ht]
    | cons c rest ih =>
      have hc : ratingLookup c = none := hpre c (by simp)
      simp only [parse_rating, List.cons_append, ratingScan, hc]
      exact ih (fun c hc => hpre c (by simp [hc]))
  · intro classes hall
    induction classes with
    | nil => rfl
    | cons c rest ih =>
      have hc : ratingLookup c = none := hall c (by simp)
      simp only [parse_rating, ratingScan, hc]
      exact ih (fun c hc => hall c (by simp [hc]))

/-- C6, witness: the class token list `["star-rating", "Three"]` rates 3,
`["star-rating"]` alone rates `none`. -/
theorem spec_C6_witness :
    ratingLookup "Three" = some 3 ∧
    parse_rating (some (["star-rating"] ++ "Three" :: [])) = some 3 ∧
    parse_rating (some ["star-rating"]) = none :=
  ⟨by decide,
   spec_C6.1 ["star-rating"] [] "Three" 3 (by decide) (by decide) (by decide),
   spec_C6.2.1 ["star-rating"] (by decide)⟩

/-- C7, counterexample: the normalization of lines 164-166 uses
`replace("../", "")`, which removes every occurrence of `../`, not only the
leading one: the href `../../x` (of the form `../X` with `X = ../x`)
produces `{base}/catalogue/x`, not `{base}/catalogue/../x` as the claim
states. -/
theorem spec_C7_counterexample :
    bookUrl ("../" ++ "../x") = "http://books.toscrape.com/catalogue/x" ∧
    bookUrl ("../" ++ "../x") ≠ "http://books.toscrape.com/catalogue/" ++ "../x" := by
  constructor
  · rfl
  · decide

/-- C7, amended: for every href `../X` in which `X` contains no further
`../` occurrence, normalization yields exactly `{base}/catalogue/X` (in
general every occurrence of `../` is removed, not only the leading one). -/
theorem spec_C7 (X : List Char) (h : hasDotDot X = false) :
    bookUrl (String.mk ('.' :: '.' :: '/' :: X)) =
      BASE_URL ++ "/catalogue/" ++ String.mk X := by
  have hid : stripDotDot X = X := stripDotDot_id X h
  unfold bookUrl normalize_href
  have hsw : startsWithDotDot (String.mk ('.' :: '.' :: '/' :: X)).toList = true := rfl
  rw [hsw]
  simp only [if_true]
  have : stripDotDot (String.mk ('.' :: '.' :: '/' :: X)).toList = X := by
    show stripDotDot ('.' :: '.' :: '/' :: X) = X
    rw [stripDotDot]
    exact hid
  rw [this]

/-- C7, witness: the amended claim applied to the href `../x.html`. -/
theorem spec_C7_witness :
    hasDotDot "x.html".toList = false ∧
    bookUrl (String.mk ('.' :: '.' :: '/' :: "x.html".toList)) =
      BASE_URL ++ "/catalogue/" ++ String.mk "x.html".toList :=
  ⟨by decide, spec_C7 "x.html".toList (by decide)⟩

/-- C9: a listing-card anchor with a missing or empty `href` is silently
skipped — processing the card list with it at the head equals processing the
remaining cards unchanged (no record, no detail fetch, no abort). -/
theorem spec_C9 (env : Env) (a : Anchor) (rest : List Anchor)
    (acc : List BookRecord) (h : a = none ∨ a = some "") :
    processCards env (a :: rest) acc = processCards env rest acc := by
  rcases h with rfl | rfl <;> simp [processCards, hrefCheck]

/-- C9, witness: the skip applied to a `href`-less anchor at the head of a
concrete card list. -/
theorem spec_C9_witness :
    processCards envC ((none : Anchor) :: [some "x.html"]) [] =
      processCards envC [some "x.html"] [] :=
  spec_C9 envC none [some "x.html"] [] (Or.inl rfl)

/-- C10: on a price text made of digits, a dot, and digits — no leading
currency marker, such as `"51.77"` — the regex search still matches,
taking the dot as the currency and the digits after it as the price, rather
than returning the full decimal with no currency. -/
theorem spec_C10 (ds fs : List Char) (hds : ds ≠ [])
    (hdig : ∀ c ∈ ds, pyDigit c = true)
    (hfs : fs ≠ []) (hfdig : ∀ c ∈ fs, pyDigit c = true) :
    parse_price (some (String.mk (ds ++ '.' :: fs))) =
      (some (digitsToNat fs : Rat), some '.', some (String.mk (ds ++ '.' :: fs))) := by
  obtain ⟨d, ds', rfl⟩ := List.exists_cons_of_ne_nil hds
  have hm : matchAt ('.' :: fs) = some ('.', fs) := by
    have := matchAt_nofrac '.' [] fs (by decide) (by decide)
      (fun c hc => absurd hc (List.not_mem_nil c)) hfs hfdig
    simpa using this
  have hres : research (d :: (ds' ++ '.' :: fs)) = some ('.', fs) := by
    have h1 := research_digits_prefix (d :: ds') ('.' :: fs) hdig
    rw [List.cons_append] at h1
    rw [h1]
    exact research_cons_some hm
  rw [List.cons_append]
  simp only [parse_price]
  rw [if_neg (stringMk_cons_ne_empty _ _)]
  have htl : (String.mk (d :: (ds' ++ '.' :: fs))).toList =
      d :: (ds' ++ '.' :: fs) := rfl
  rw [htl, hres]
  dsimp only
  rw [parseVal_digits fs hfdig]

/-- C10, witness: the claim's exact input `"51.77"` yields price 77,
currency `'.'`, and the raw text back. -/
theorem spec_C10_witness :
    String.mk (['5', '1'] ++ '.' :: ['7', '7']) = "51.77" ∧
    (digitsToNat ['7', '7'] : Rat) = 77 ∧
    parse_price (some (String.mk (['5', '1'] ++ '.' :: ['7', '7']))) =
      (some ((digitsToNat ['7', '7'] : Rat)), some '.',
       some (String.mk (['5', '1'] ++ '.' :: ['7', '7']))) :=
  ⟨rfl, by decide,
   spec_C10 ['5', '1'] ['7', '7'] (by decide) (by decide) (by decide) (by decide)⟩

/-- C2: a non-success catalog-page fetch ends the run normally with the
records collected so far; a failing detail-page fetch on the current page
makes the whole run abort with the propagated failure, and nothing is saved
after an aborted run (the save step of lines 177-180 is never reached). -/
theorem spec_C2 :
    (∀ (env : Env) (limit : Option Nat) (fuel page : Nat) (acc : List BookRecord),
        env.fetchCatalog page = none →
        scrapeLoop env limit (fuel + 1) page acc = Outcome.ok acc) ∧
    (∀ (env : Env) (limit : Option Nat) (fuel page : Nat) (acc : List BookRecord)
        (body : CatalogPage),
        env.fetchCatalog page = some body →
        (∃ url ∈ detailUrls body, env.fetchDetail url = none) →
        scrapeLoop env limit (fuel + 1) page acc = Outcome.fail) ∧
    (∀ is_save : Bool, savedLines is_save Outcome.fail = none) := by
  refine ⟨?_, ?_, ?_⟩
  · intro env limit fuel page acc h
    simp [scrapeLoop, h]
  · intro env limit fuel page acc body h hex
    simp [scrapeLoop, h, processCards_fail env body acc hex]
  · intro is_save
    rfl

/-- C2, witness: on a run whose only catalog page has one link and whose
detail fetch fails, the loop fails and saves nothing; the first conjunct is
exercised at an unavailable page. -/
theorem spec_C2_witness :
    envC.fetchCatalog 1 = some [some "x.html"] ∧
    scrapeLoop envC none 1 1 [] = Outcome.fail ∧
    savedLines true Outcome.fail = none ∧
    scrapeLoop envC none 1 2 [] = Outcome.ok [] :=
  ⟨rfl,
   spec_C2.2.1 envC none 0 1 [] [some "x.html"] rfl
     ⟨bookUrl "x.html", by decide, rfl⟩,
   spec_C2.2.2 true,
   spec_C2.1 envC none 0 2 [] rfl⟩

/-- C3: with `pages_to_scrape = None`, the crawl terminates once some
catalog page fetch returns a non-success status: with at least that many
loop iterations of fuel available, the run does not exhaust its fuel. -/
theorem spec_C3 (env : Env) (k fuel : Nat) (h1 : 1 ≤ k)
    (h2 : env.fetchCatalog k = none) (h3 : k ≤ fuel) :
    scrape_books env none fuel ≠ Outcome.timeout :=
  scrapeLoop_no_timeout env k h2 fuel 1 [] h1 (by omega)

/-- C3, witness: termination on a run whose catalog disappears at page 3. -/
theorem spec_C3_witness :
    envA.fetchCatalog 3 = none ∧ scrape_books envA none 3 ≠ Outcome.timeout :=
  ⟨rfl, spec_C3 envA 3 3 (by decide) rfl (by decide)⟩

/-- C4: with `pages_to_scrape = 1` and catalog page 1 available with all its
detail fetches succeeding, the run returns one record per detail link of
page 1, in in-page link order — exactly as many records as links; and the
result never depends on catalog pages other than page 1 (no page-2 fetch):
two environments agreeing on catalog page 1 and on detail fetches give
identical runs. -/
theorem spec_C4 :
    (∀ (env : Env) (body : CatalogPage) (fuel : Nat),
        env.fetchCatalog 1 = some body →
        (∀ url ∈ detailUrls body, (env.fetchDetail url).isSome = true) →
        scrape_books env (some 1) (fuel + 1) =
          Outcome.ok ((detailUrls body).map (extractFetched env)) ∧
        ((detailUrls body).map (extractFetched env)).length =
          (detailUrls body).length) ∧
    (∀ (env env2 : Env) (fuel : Nat),
        env.fetchCatalog 1 = env2.fetchCatalog 1 →
        env.fetchDetail = env2.fetchDetail →
        scrape_books env (some 1) (fuel + 1) =
          scrape_books env2 (some 1) (fuel + 1)) := by
  constructor
  · intro env body fuel hcat hok
    refine ⟨?_, List.length_map _ _⟩
    unfold scrape_books
    simp [scrapeLoop, hcat, processCards_ok env body [] hok]
  · intro env env2 fuel h1 h2
    unfold scrape_books
    simp [scrapeLoop, h1, processCards_congr env env2 h2]

/-- C4, witness: a page-1 listing with two linked cards (and one without an
`href`) yields exactly its two records in link order. -/
theorem spec_C4_witness :
    envB.fetchCatalog 1 = some [some "a.html", none, some "../b.html"] ∧
    scrape_books envB (some 1) 1 =
      Outcome.ok ((detailUrls [some "a.html", none, some "../b.html"]).map
        (extractFetched envB)) :=
  ⟨rfl,
   (spec_C4.1 envB [some "a.html", none, some "../b.html"] 0 rfl
     (fun _ _ => rfl)).1⟩

/-- C8: serializing a crawl result one JSON object per record (strings
carried literally, so non-ASCII characters are preserved) and re-parsing the
lines yields records equal field-by-field to the originals, in order. -/
theorem spec_C8 (rs : List BookRecord) :
    reparseRecords (rs.map bookToJson) = some rs := by
  induction rs with
  | nil => rfl
  | cons r rest ih =>
    simp [reparseRecords, jsonToBook_bookToJson, ih]
